import Mathlib

/-!
# Verification of the e2d snapshot subsystem

A shallow embedding, in Lean 4, of the snapshot subsystem of the `e2d`
repository: the pointer-record ("latest file") JSON protocol, the backup URL
parser, and the save/load/retention state machines of the local (file), S3
(Amazon) and Azure backends.  Strings are modelled as `List Char`; object
stores and directories as explicit finite maps; each `Save` additionally
returns a trace of its externally visible effects so that ordering claims can
be stated.
-/

namespace E2D

/-- Strings of the Go program are modelled as lists of Unicode scalar values. -/
abbrev Str := List Char

/-! ## Characters used in literals that are awkward to quote -/

/-- The double-quote character `"`. -/
def qchar : Char := Char.ofNat 34

/-- The backslash character. -/
def bslashChar : Char := Char.ofNat 92

/-- The opening curly brace. -/
def braceL : Char := Char.ofNat 123

/-- The closing curly brace. -/
def braceR : Char := Char.ofNat 125

/-! ## Decimal rendering of naturals (Go `fmt` verb for integers) -/

/-- The decimal digit character for `n` (meaningful for `n < 10`). -/
def digitChar (n : Nat) : Char := Char.ofNat (48 + n)

/-- Accumulator loop of decimal rendering: emits the digits of `n` in order
before `acc`; `fuel` bounds the digit count so the recursion is structural. -/
def natToCharsAux (fuel : Nat) (n : Nat) (acc : Str) : Str :=
  match fuel with
  | 0 => acc
  | fuel + 1 =>
    if n < 10 then digitChar n :: acc
    else natToCharsAux fuel (n / 10) (digitChar (n % 10) :: acc)

/-- Decimal rendering of a natural number, as produced by the Go `%d` verb for
the (non-negative) Unix timestamps used in snapshot names. -/
def natToChars (n : Nat) : Str := natToCharsAux (n + 1) n []

theorem digitChar_isDigit {n : Nat} (h : n < 10) : (digitChar n).isDigit = true := by
  have : ∀ m : Fin 10, (digitChar m.val).isDigit = true := by decide
  exact this ⟨n, h⟩

theorem mem_natToCharsAux {c : Char} :
    ∀ fuel n acc, c ∈ natToCharsAux fuel n acc → c.isDigit = true ∨ c ∈ acc := by
  intro fuel
  induction fuel with
  | zero => intro n acc hmem; exact Or.inr hmem
  | succ fuel ih =>
    intro n acc hmem
    rw [natToCharsAux] at hmem
    split at hmem
    · rcases List.mem_cons.1 hmem with h | h
      · exact Or.inl (h ▸ digitChar_isDigit (by omega))
      · exact Or.inr h
    · rcases ih (n / 10) _ hmem with h | h
      · exact Or.inl h
      · rcases List.mem_cons.1 h with h | h
        · exact Or.inl (h ▸ digitChar_isDigit (Nat.mod_lt _ (by omega)))
        · exact Or.inr h

theorem mem_natToChars_isDigit {c : Char} {n : Nat} (h : c ∈ natToChars n) :
    c.isDigit = true := by
  rcases mem_natToCharsAux (n + 1) n [] h with h | h
  · exact h
  · cases h

/-- The decimal rendering of a timestamp is never the literal `LATEST`. -/
theorem natToChars_ne_LATEST (n : Nat) : natToChars n ≠ ("LATEST".data) := by
  intro h
  have hL : 'L' ∈ natToChars n := by rw [h]; decide
  have := mem_natToChars_isDigit hL
  simp [Char.isDigit] at this

/-! ## Conversion helpers for characters -/

theorem charOfNat_toNat (c : Char) : Char.ofNat c.toNat = c := by
  have hv : c.toNat.isValidChar := c.valid
  simp [Char.ofNat, hv, Char.ofNatAux]
  apply Char.ext
  apply UInt32.ext
  simp [Char.toNat, UInt32.toNat, UInt32.ofNatCore, BitVec.toNat_ofNat]

/-! ## JSON serialization of the pointer record

`(*LatestFile).generate` is `json.Marshal` and `(*LatestFile).read` is
`json.Unmarshal`; both are modelled at the level of the emitted character
sequence. -/

/-- Hexadecimal digit character, lowercase, as Go JSON `\u00xx` escapes use. -/
def hexDigitChar (n : Nat) : Char := if n < 10 then digitChar n else Char.ofNat (87 + n)

/-- Numeric value of a hexadecimal digit character, if it is one. -/
def hexVal (c : Char) : Option Nat :=
  if 48 ≤ c.toNat ∧ c.toNat ≤ 57 then some (c.toNat - 48)
  else if 97 ≤ c.toNat ∧ c.toNat ≤ 102 then some (c.toNat - 87)
  else if 65 ≤ c.toNat ∧ c.toNat ≤ 70 then some (c.toNat - 55)
  else none

/-- Go `encoding/json` escaping of one character, with the HTML escaping that
`json.Marshal` applies by default: quote and backslash get a backslash escape,
so do newline, carriage return and tab; other control characters and the HTML
characters are emitted as `\u00xx`; U+2028 and U+2029 as `\u202x`. -/
def escapeChar (c : Char) : Str :=
  if c = qchar then [bslashChar, qchar]
  else if c = bslashChar then [bslashChar, bslashChar]
  else if c = '\n' then [bslashChar, 'n']
  else if c = '\r' then [bslashChar, 'r']
  else if c = '\t' then [bslashChar, 't']
  else if c.toNat < 32 ∨ c = '<' ∨ c = '>' ∨ c = '&' then
    [bslashChar, 'u', '0', '0', hexDigitChar (c.toNat / 16), hexDigitChar (c.toNat % 16)]
  else if c.toNat = 8232 ∨ c.toNat = 8233 then
    [bslashChar, 'u', '2', '0', '2', hexDigitChar (c.toNat % 16)]
  else [c]

/-- Go JSON escaping of a whole string (content between the quotes). -/
def escapeStr (s : Str) : Str := (s.map escapeChar).flatten

/-- The pointer record (`LatestFile`) of `pkg/snapshot`: `Path` names the most
recently uploaded snapshot object and `Timestamp` records when it was
produced. -/
structure LatestFile where
  Path : Str
  Timestamp : Str
deriving DecidableEq

/-- `(*LatestFile).generate`: `json.Marshal` of the record, which emits the two
fields in declaration order, each value with Go string escaping. -/
def LatestFile.generate (l : LatestFile) : Str :=
  braceL :: qchar :: (("Path".data) ++ [qchar, ':', qchar] ++ escapeStr l.Path
    ++ [qchar, ',', qchar] ++ ("Timestamp".data) ++ [qchar, ':', qchar]
    ++ escapeStr l.Timestamp ++ [qchar, braceR])

/-- Decoding of a single-character JSON escape (after the backslash), as Go
`encoding/json` accepts. -/
def unescapeChar (e : Char) : Option Char :=
  if e = qchar then some qchar
  else if e = bslashChar then some bslashChar
  else if e = '/' then some '/'
  else if e = 'b' then some (Char.ofNat 8)
  else if e = 'f' then some (Char.ofNat 12)
  else if e = 'n' then some '\n'
  else if e = 'r' then some '\r'
  else if e = 't' then some '\t'
  else none

/-- Decode a JSON string body (after the opening quote) up to and including
the closing quote: plain characters are literal, backslash escapes decode via
`unescapeChar`, and `\uXXXX` to the scalar value `XXXX`.  Returns the decoded
string and the remaining input. -/
def parseStringBody : Str → Option (Str × Str)
  | [] => none
  | c :: rest =>
    if c = qchar then some ([], rest)
    else if c = bslashChar then
      match rest with
      | [] => none
      | e :: rest2 =>
        if e = 'u' then
          match rest2 with
          | a :: b :: c2 :: d :: rest3 =>
            match hexVal a, hexVal b, hexVal c2, hexVal d with
            | some ha, some hb, some hc, some hd =>
              match parseStringBody rest3 with
              | some (s, r) =>
                some (Char.ofNat (4096 * ha + 256 * hb + 16 * hc + hd) :: s, r)
              | none => none
            | _, _, _, _ => none
          | _ => none
        else
          match unescapeChar e with
          | some ch =>
            match parseStringBody rest2 with
            | some (s, r) => some (ch :: s, r)
            | none => none
          | none => none
    else
      match parseStringBody rest with
      | some (s, r) => some (c :: s, r)
      | none => none

/-- Skip JSON insignificant whitespace. -/
def skipWs : Str → Str
  | c :: rest => if c = ' ' ∨ c = '\t' ∨ c = '\n' ∨ c = '\r' then skipWs rest else c :: rest
  | [] => []

/-- Parse the members of a JSON object whose values are all strings, starting
at the first member; `fuel` bounds the number of members.  Returns the members
and the input remaining after the closing brace. -/
def parseMembersAux (fuel : Nat) (s : Str) : Option (List (Str × Str) × Str) :=
  match fuel with
  | 0 => none
  | fuel + 1 =>
    match skipWs s with
    | c :: rest =>
      if c = qchar then
        match parseStringBody rest with
        | some (k, r1) =>
          match skipWs r1 with
          | ':' :: r2 =>
            match skipWs r2 with
            | q2 :: r3 =>
              if q2 = qchar then
                match parseStringBody r3 with
                | some (v, r4) =>
                  match skipWs r4 with
                  | ',' :: r5 =>
                    match parseMembersAux fuel r5 with
                    | some (ms, r6) => some ((k, v) :: ms, r6)
                    | none => none
                  | c2 :: r5 => if c2 = braceR then some ([(k, v)], r5) else none
                  | [] => none
                | none => none
              else none
            | [] => none
          | _ => none
        | none => none
      else none
    | [] => none

/-- Parse a whole JSON object with string-typed members, requiring only
whitespace after the closing brace (Go `json.Unmarshal` rejects trailing
data). -/
def parseStringObject (s : Str) : Option (List (Str × Str)) :=
  match skipWs s with
  | c :: rest =>
    if c = braceL then
      match skipWs rest with
      | c2 :: r2 =>
        if c2 = braceR then if skipWs r2 = [] then some [] else none
        else
          match parseMembersAux (s.length + 2) (c2 :: r2) with
          | some (ms, r3) => if skipWs r3 = [] then some ms else none
          | none => none
      | [] => none
    else none
  | [] => none

/-- ASCII lowercasing of one character (enough for the field names here). -/
def lowerChar (c : Char) : Char :=
  if 65 ≤ c.toNat ∧ c.toNat ≤ 90 then Char.ofNat (c.toNat + 32) else c

/-- Case folding of a member or field name, as Go field matching uses. -/
def foldName (s : Str) : Str := s.map lowerChar

/-- `(*LatestFile).read`: `json.Unmarshal` of the bytes into the record.  Each
object member whose name matches a struct field (exactly or case-insensitively)
assigns that field, later members overriding earlier ones; unmatched members
are ignored; absent fields keep their zero value. -/
def LatestFile.read (input : Str) : Option LatestFile :=
  match parseStringObject input with
  | none => none
  | some ms =>
    some (ms.foldl (fun (l : LatestFile) kv =>
      if foldName kv.1 = foldName ("Path".data) then { l with Path := kv.2 }
      else if foldName kv.1 = foldName ("Timestamp".data) then { l with Timestamp := kv.2 }
      else l) ⟨[], []⟩)

/-! ## Round trip of the JSON string encoding -/

theorem hexVal_hexDigitChar {n : Nat} (h : n < 16) : hexVal (hexDigitChar n) = some n := by
  have : ∀ m : Fin 16, hexVal (hexDigitChar m.val) = some m.val := by decide
  exact this ⟨n, h⟩

theorem parseStringBody_escape (s rest : Str) :
    parseStringBody (escapeStr s ++ qchar :: rest) = some (s, rest) := by
  induction s with
  | nil =>
    show parseStringBody (qchar :: rest) = some ([], rest)
    rw [parseStringBody.eq_def]
    simp
  | cons c s ih =>
    have hes : escapeStr (c :: s) = escapeChar c ++ escapeStr s := by simp [escapeStr]
    rw [hes, List.append_assoc]
    by_cases h1 : c = qchar
    · subst h1
      have he : escapeChar qchar = [bslashChar, qchar] := by simp [escapeChar]
      rw [he]
      have hbq : ¬ bslashChar = qchar := by decide
      have hqu : ¬ qchar = 'u' := by decide
      rw [List.cons_append, List.cons_append, parseStringBody.eq_def]
      simp [hbq, hqu, unescapeChar, ih]
    · by_cases h2 : c = bslashChar
      · subst h2
        have he : escapeChar bslashChar = [bslashChar, bslashChar] := by
          simp [escapeChar, h1]
        rw [he]
        have hbq : ¬ bslashChar = qchar := by decide
        have hbu : ¬ bslashChar = 'u' := by decide
        rw [List.cons_append, List.cons_append, parseStringBody.eq_def]
        simp [hbq, hbu, unescapeChar, ih]
      · by_cases h3 : c = '\n'
        · subst h3
          have he : escapeChar '\n' = [bslashChar, 'n'] := by
            have hq : ¬ ('\n' : Char) = qchar := by decide
            have hb : ¬ ('\n' : Char) = bslashChar := by decide
            simp [escapeChar, hq, hb]
          rw [he]
          have hbq : ¬ bslashChar = qchar := by decide
          have hnu : ¬ ('n' : Char) = 'u' := by decide
          have hun : unescapeChar 'n' = some '\n' := by decide
          rw [List.cons_append, List.cons_append, parseStringBody.eq_def]
          simp [hbq, hnu, hun, ih]
        · by_cases h4 : c = '\r'
          · subst h4
            have he : escapeChar '\r' = [bslashChar, 'r'] := by
              have hq : ¬ ('\r' : Char) = qchar := by decide
              have hb : ¬ ('\r' : Char) = bslashChar := by decide
              have hn : ¬ ('\r' : Char) = '\n' := by decide
              simp [escapeChar, hq, hb, hn]
            rw [he]
            have hbq : ¬ bslashChar = qchar := by decide
            have hru : ¬ ('r' : Char) = 'u' := by decide
            have hur : unescapeChar 'r' = some '\r' := by decide
            rw [List.cons_append, List.cons_append, parseStringBody.eq_def]
            simp [hbq, hru, hur, ih]
          · by_cases h5 : c = '\t'
            · subst h5
              have he : escapeChar '\t' = [bslashChar, 't'] := by
                have hq : ¬ ('\t' : Char) = qchar := by decide
                have hb : ¬ ('\t' : Char) = bslashChar := by decide
                have hn : ¬ ('\t' : Char) = '\n' := by decide
                have hr : ¬ ('\t' : Char) = '\r' := by decide
                simp [escapeChar, hq, hb, hn, hr]
              rw [he]
              have hbq : ¬ bslashChar = qchar := by decide
              have htu : ¬ ('t' : Char) = 'u' := by decide
              have hut : unescapeChar 't' = some '\t' := by decide
              rw [List.cons_append, List.cons_append, parseStringBody.eq_def]
              simp [hbq, htu, hut, ih]
            · by_cases h6 : c.toNat < 32 ∨ c = '<' ∨ c = '>' ∨ c = '&'
              · have he : escapeChar c = [bslashChar, 'u', '0', '0',
                    hexDigitChar (c.toNat / 16), hexDigitChar (c.toNat % 16)] := by
                  simp [escapeChar, h1, h2, h3, h4, h5, h6]
                rw [he]
                have hlt : c.toNat < 63 := by
                  rcases h6 with h | h | h | h
                  · omega
                  · subst h; decide
                  · subst h; decide
                  · subst h; decide
                have hv1 := hexVal_hexDigitChar (n := c.toNat / 16) (by omega)
                have hv2 := hexVal_hexDigitChar (n := c.toNat % 16) (by omega)
                have hz : hexVal '0' = some 0 := by decide
                have hbq : ¬ bslashChar = qchar := by decide
                rw [List.cons_append, List.cons_append, List.cons_append,
                  List.cons_append, List.cons_append, List.cons_append,
                  parseStringBody.eq_def]
                simp [hbq, hz, hv1, hv2, ih]
                rw [show 16 * (c.toNat / 16) + c.toNat % 16 = c.toNat by omega,
                  charOfNat_toNat]
              · by_cases h7 : c.toNat = 8232 ∨ c.toNat = 8233
                · have he : escapeChar c = [bslashChar, 'u', '2', '0', '2',
                      hexDigitChar (c.toNat % 16)] := by
                    simp [escapeChar, h1, h2, h3, h4, h5, h6, h7]
                  rw [he]
                  have hv1 := hexVal_hexDigitChar (n := c.toNat % 16) (by omega)
                  have hz : hexVal '0' = some 0 := by decide
                  have h2v : hexVal '2' = some 2 := by decide
                  have hbq : ¬ bslashChar = qchar := by decide
                  rw [List.cons_append, List.cons_append, List.cons_append,
                    List.cons_append, List.cons_append, List.cons_append,
                    parseStringBody.eq_def]
                  simp [hbq, hz, h2v, hv1, ih]
                  rw [show 4096 * 2 + 256 * 0 + 16 * 2 + c.toNat % 16 = c.toNat by omega,
                    charOfNat_toNat]
                · have he : escapeChar c = [c] := by
                    simp [escapeChar, h1, h2, h3, h4, h5, h6, h7]
                  rw [he]
                  rw [List.cons_append, parseStringBody.eq_def]
                  simp [h1, h2, ih]

/-! ## Round trip of the pointer-record object encoding -/

theorem skipWs_cons_not_ws {c : Char} (hc : ¬(c = ' ' ∨ c = '\t' ∨ c = '\n' ∨ c = '\r'))
    (s : Str) : skipWs (c :: s) = c :: s := by
  rw [skipWs.eq_def]; simp [hc]

theorem skipWs_qchar (s : Str) : skipWs (qchar :: s) = qchar :: s :=
  skipWs_cons_not_ws (by decide) s

theorem skipWs_colon (s : Str) : skipWs (':' :: s) = ':' :: s :=
  skipWs_cons_not_ws (by decide) s

theorem skipWs_comma (s : Str) : skipWs (',' :: s) = ',' :: s :=
  skipWs_cons_not_ws (by decide) s

theorem skipWs_braceR (s : Str) : skipWs (braceR :: s) = braceR :: s :=
  skipWs_cons_not_ws (by decide) s

theorem skipWs_braceL (s : Str) : skipWs (braceL :: s) = braceL :: s :=
  skipWs_cons_not_ws (by decide) s

theorem skipWs_nil : skipWs ([] : Str) = [] := by rw [skipWs.eq_def]

theorem parseStringBody_Path (t : Str) :
    parseStringBody ('P' :: 'a' :: 't' :: 'h' :: qchar :: t) = some (("Path".data), t) := by
  have h := parseStringBody_escape ("Path".data) t
  rw [show escapeStr ("Path".data) = "Path".data from by decide] at h
  exact h

theorem parseStringBody_Timestamp (t : Str) :
    parseStringBody ('T' :: 'i' :: 'm' :: 'e' :: 's' :: 't' :: 'a' :: 'm' :: 'p' ::
      qchar :: t) = some (("Timestamp".data), t) := by
  have h := parseStringBody_escape ("Timestamp".data) t
  rw [show escapeStr ("Timestamp".data) = "Timestamp".data from by decide] at h
  exact h

theorem parseMembersAux_generate (l : LatestFile) (f : Nat) :
    parseMembersAux (f + 2)
      (qchar :: 'P' :: 'a' :: 't' :: 'h' :: qchar :: ':' :: qchar ::
        (escapeStr l.Path ++ qchar :: ',' :: qchar :: 'T' :: 'i' :: 'm' :: 'e' :: 's' ::
          't' :: 'a' :: 'm' :: 'p' :: qchar :: ':' :: qchar ::
          (escapeStr l.Timestamp ++ qchar :: braceR :: [])))
    = some ([(("Path".data), l.Path), (("Timestamp".data), l.Timestamp)], []) := by
  rw [parseMembersAux.eq_def]
  simp only [skipWs_qchar, skipWs_colon, skipWs_comma, skipWs_braceR,
    parseStringBody_Path, parseStringBody_Timestamp, parseStringBody_escape]
  have hqq : (qchar = qchar) = True := by simp
  simp only [hqq, if_true]
  rw [parseMembersAux.eq_def]
  simp only [skipWs_qchar, skipWs_colon, skipWs_comma, skipWs_braceR,
    parseStringBody_Path, parseStringBody_Timestamp, parseStringBody_escape]
  simp [show ¬ braceR = ',' from by decide]

theorem parseStringObject_generate (l : LatestFile) :
    parseStringObject l.generate
      = some [(("Path".data), l.Path), (("Timestamp".data), l.Timestamp)] := by
  have hgen : l.generate = braceL :: qchar ::
      ('P' :: 'a' :: 't' :: 'h' :: qchar :: ':' :: qchar ::
        (escapeStr l.Path ++ qchar :: ',' :: qchar :: 'T' :: 'i' :: 'm' :: 'e' :: 's' ::
          't' :: 'a' :: 'm' :: 'p' :: qchar :: ':' :: qchar ::
          (escapeStr l.Timestamp ++ qchar :: braceR :: []))) := by
    rw [LatestFile.generate]
    simp
  rw [hgen, parseStringObject.eq_def]
  simp only [skipWs_braceL, skipWs_qchar, skipWs_nil, parseMembersAux_generate,
    show (qchar = braceR) = False from by decide, if_false]
  simp

/-- Round trip of the pointer record: `read` after `generate` restores the
record field for field. -/
theorem read_generate (l : LatestFile) : LatestFile.read l.generate = some l := by
  rw [LatestFile.read.eq_def, parseStringObject_generate]
  simp [foldName, show ¬ ((("Timestamp".data).map lowerChar)
    = (("Path".data).map lowerChar)) from by decide]

/-- Decidable equality for `Except`, used to evaluate the parser models on
concrete inputs. -/
instance instDecEqExcept {e a : Type} [DecidableEq e] [DecidableEq a] :
    DecidableEq (Except e a) := fun x y =>
  match x, y with
  | .error v, .error w =>
    if h : v = w then isTrue (by rw [h]) else isFalse (by simp [h])
  | .ok v, .ok w =>
    if h : v = w then isTrue (by rw [h]) else isFalse (by simp [h])
  | .error _, .ok _ => isFalse (by simp)
  | .ok _, .error _ => isFalse (by simp)

/-! ## The backup URL parser -/

/-- Backend selector (`Type` in the source, with constants `FileType`,
`S3Type`, `AzureType`). -/
inductive StoreKind | file | s3 | azure
deriving DecidableEq

/-- The parsed backup URL (`URL` in the source): a selector plus `Bucket` and
`Path` locator fields (fields a branch does not set keep the zero value). -/
structure URL where
  kind : StoreKind
  Bucket : Str
  Path : Str
deriving DecidableEq

/-- Errors of `ParseSnapshotBackupURL`: the three sentinel errors of the
source, plus `parseFailed` standing for an error returned by `url.Parse`
itself. -/
inductive UrlErr | invalidScheme | invalidDirectoryPath | cannotParse | parseFailed
deriving DecidableEq

/-- The scheme prefixes accepted by `hasValidScheme`.  Note `azure://` is
absent while `http://` and `https://` are present, exactly as in the
source. -/
def schemes : List Str :=
  [("file://".data), ("s3://".data), ("http://".data), ("https://".data)]

/-- `hasValidScheme`: does the raw URL string start with one of `schemes`? -/
def hasValidScheme (s : Str) : Bool := schemes.any (fun p => p.isPrefixOf s)

/-- Result of `net/url.Parse` restricted to the fields the snapshot code
reads: scheme, authority host, and path. -/
structure UrlParts where
  scheme : Str
  host : Str
  path : Str
deriving DecidableEq

/-- ASCII lowering of a whole string (`strings.ToLower` restricted to the
ASCII inputs at hand). -/
def toLowerStr (s : Str) : Str := s.map lowerChar

/-- Characters legal in a URL scheme after the first one (RFC 3986, as
enforced by `net/url.Parse`). -/
def schemeCharOk (c : Char) : Bool :=
  c.isAlpha ∨ c.isDigit ∨ c = '+' ∨ c = '-' ∨ c = '.'

/-- Control characters make `net/url.Parse` fail. -/
def ctlFree (s : Str) : Bool := s.all (fun c => 32 ≤ c.toNat ∧ c.toNat ≠ 127)

/-- Model of `net/url.Parse` on authority-form URLs (`scheme://host/path`),
the shape of every input the snapshot code accepts: the scheme is everything
before the first colon (non-empty, alphabetic first character, scheme
characters only, lowercased as `url.Parse` does), the authority host runs to
the next slash and the path is the rest.  Control characters, a missing
scheme or a missing `//` yield a parse failure. -/
def goUrlParse (s : Str) : Option UrlParts :=
  if ¬ ctlFree s = true then none
  else
    let scheme := s.takeWhile (fun c => c ≠ ':')
    match s.dropWhile (fun c => c ≠ ':') with
    | ':' :: r2 =>
      if (match scheme with
          | c :: _ => c.isAlpha
          | [] => false) = true ∧ scheme.all schemeCharOk = true then
        match r2 with
        | '/' :: '/' :: r3 =>
          some ⟨toLowerStr scheme, r3.takeWhile (fun c => c ≠ '/'),
            r3.dropWhile (fun c => c ≠ '/')⟩
        | _ => none
      else none
    | _ => none

/-- One step of `path/filepath.Clean`'s segment processing; `acc` holds the
output segments in reverse. -/
def cleanSeg (rooted : Bool) (acc : List Str) (seg : Str) : List Str :=
  if seg = [] ∨ seg = (".".data) then acc
  else if seg = ("..".data) then
    match acc with
    | [] => if rooted then [] else [seg]
    | last :: restAcc => if last = ("..".data) then seg :: acc else restAcc
  else seg :: acc

/-- `path/filepath.Clean` with `/` as the separator: squeeze repeated
separators, resolve `.` and `..` segments, return `.` for an empty result. -/
def filepathClean (path : Str) : Str :=
  if path = [] then (".".data)
  else
    let rooted := path.head? = some '/'
    let out := ((path.splitOn '/').foldl (cleanSeg rooted) []).reverse
    let joined := List.intercalate ("/".data) out
    if rooted then '/' :: joined
    else if joined = [] then (".".data) else joined

/-- `path/filepath.Join` on two elements, as the source calls it: leading
empty elements are dropped, the rest joined with `/` and cleaned; all-empty
input gives the empty path. -/
def filepathJoin (a b : Str) : Str :=
  if a = [] then (if b = [] then [] else filepathClean b)
  else filepathClean (a ++ '/' :: b)

/-- `strings.TrimPrefix`. -/
def trimPref (s p : Str) : Str := if p.isPrefixOf s then s.drop p.length else s

/-- `ParseSnapshotBackupURL`: the scheme allow-list check, `url.Parse`, then
the switch on the lowercased scheme, exactly as in the source. -/
def parseSnapshotBackupURL (s : Str) : Except UrlErr URL :=
  if ¬ hasValidScheme s = true then .error .invalidScheme
  else
    match goUrlParse s with
    | none => .error .parseFailed
    | some u =>
      if toLowerStr u.scheme = ("file".data) then
        if ¬ (['/'].isSuffixOf u.path) = true then .error .invalidDirectoryPath
        else .ok ⟨.file, [], filepathJoin u.host u.path⟩
      else if toLowerStr u.scheme = ("s3".data) then
        let path := trimPref u.path ("/".data)
        if ¬ (['/'].isSuffixOf path) = true ∧ path ≠ [] then
          .error .invalidDirectoryPath
        else .ok ⟨.s3, u.host, path⟩
      else if toLowerStr u.scheme = ("azure".data) then
        .ok ⟨.azure, u.host, []⟩
      else .error .cannotParse

/-- Errors of the Azure URL parser, named as the sentinel errors its test
compares against. -/
inductive AzUrlErr | unsupportedScheme | hostEmpty | pathEmpty
deriving DecidableEq

/-- First path segment of a URL path: the part between the leading slash and
the next slash. -/
def firstSegment (p : Str) : Str :=
  (trimPref p ("/".data)).takeWhile (fun c => c ≠ '/')

/-- Modelled from the spec: `ParseAzureURL` is exercised by
`pkg/snapshot/snapshot_azure_test.go` but its implementation is not among the
provided sources.  Per spec §4.2 and the test table: a URL whose scheme is
not `azure` is rejected as *unsupported-scheme*; the storage-account host is
required (else *host-empty*); the container name is the first path segment
and is required (else *path-empty*); on success the storage-account host and
the container name are returned. -/
def parseAzureURL (s : Str) : Except AzUrlErr (Str × Str) :=
  match goUrlParse s with
  | none => .error .unsupportedScheme
  | some u =>
    if toLowerStr u.scheme ≠ ("azure".data) then .error .unsupportedScheme
    else if u.host = [] then .error .hostEmpty
    else
      let cn := firstSegment u.path
      if cn = [] then .error .pathEmpty
      else .ok (u.host, cn)

/-! ## Object stores and the three backends -/

/-- `etcd.snapshot`, the shared object/file name stem (`snapshotFilename`). -/
def snapshotFilename : Str := "etcd.snapshot".data

/-- `LATEST`, the pointer name suffix (`latestSuffix`). -/
def latestSuffix : Str := "LATEST".data

/-- A bucket / container: a finite map from object keys to byte contents. -/
def Store := Str → Option Str

/-- Atomic full overwrite of one key — object-store PUT semantics. -/
def Store.put (st : Store) (k v : Str) : Store :=
  fun k2 => if k2 = k then some v else st k2

/-- The timestamped object key written by `AmazonSnapshotter.Save`:
`s.key + fmt.Sprintf("%s.%d", snapshotFilename, backupTimestamp.Unix())`. -/
def amazonSnapshotPath (key : Str) (t : Nat) : Str :=
  key ++ snapshotFilename ++ '.' :: natToChars t

/-- The pointer object key written by `AmazonSnapshotter.Save`:
`s.key + fmt.Sprintf("%s.%s", snapshotFilename, latestSuffix)`. -/
def amazonLatestPath (key : Str) : Str :=
  key ++ snapshotFilename ++ '.' :: latestSuffix

/-- Externally visible S3 transfers of one `Save`, in program order; `ok`
records whether the transfer succeeded. -/
inductive S3Eff
  | imgUpload (k : Str) (b : Str) (ok : Bool)
  | ptrUpload (k : Str) (b : Str) (ok : Bool)
deriving DecidableEq

/-- Result of an S3 save: whether an error was returned, the bucket
afterwards, and the effect trace. -/
structure SaveRes where
  err : Bool
  store : Store
  trace : List S3Eff

/-- `AmazonSnapshotter.Save` on a bucket state: compute both keys from the
wall-clock second `t`, upload the image, and only on success generate the
pointer record (`ts` is the formatted timestamp) and upload it to the LATEST
key; a failed upload (injected through `imgOk` / `ptrOk`) returns the error
at once. -/
def amazonSave (key : Str) (st : Store) (t : Nat) (ts : Str) (b : Str)
    (imgOk ptrOk : Bool) : SaveRes :=
  let sp := amazonSnapshotPath key t
  let lp := amazonLatestPath key
  if imgOk then
    let st1 := st.put sp b
    let content := LatestFile.generate ⟨sp, ts⟩
    if ptrOk then
      ⟨false, st1.put lp content,
        [.imgUpload sp b true, .ptrUpload lp content true]⟩
    else ⟨true, st1, [.imgUpload sp b true, .ptrUpload lp content false]⟩
  else ⟨true, st, [.imgUpload sp b false]⟩

/-- `AmazonSnapshotter.Load`: download the pointer object, decode it with
`(*LatestFile).read`, then download the object named by its `Path` field and
return that stream's contents; a missing object or an undecodable pointer is
an error. -/
def amazonLoad (key : Str) (st : Store) : Option Str :=
  match st (amazonLatestPath key) with
  | none => none
  | some bytes =>
    match LatestFile.read bytes with
    | none => none
    | some l => st l.Path

/-- The Azure snapshot blob name (`snapshotPath`), container-relative. -/
def azureSnapshotPath (t : Nat) : Str := snapshotFilename ++ '.' :: natToChars t

/-- The Azure pointer blob name (`latestPath`). -/
def azureLatestPath : Str := snapshotFilename ++ '.' :: latestSuffix

/-- Externally visible effects of one `azureSnapshotter.Save`. -/
inductive AzEff
  | tmpWrite (b : Str) (ok : Bool)
  | imgUpload (k : Str) (b : Str) (ok : Bool)
  | ptrUpload (k : Str) (b : Str) (ok : Bool)
deriving DecidableEq

/-- Result of an Azure save. -/
structure AzSaveRes where
  err : Bool
  store : Store
  trace : List AzEff

/-- `azureSnapshotter.Save`: stage the stream into a temporary file, upload
the image blob, then `updateLatest` generates and uploads the pointer blob;
any step's failure (injected through `tmpOk` / `imgOk` / `ptrOk`) returns the
error at once. -/
def azureSave (st : Store) (t : Nat) (ts : Str) (b : Str)
    (tmpOk imgOk ptrOk : Bool) : AzSaveRes :=
  let sp := azureSnapshotPath t
  if tmpOk then
    if imgOk then
      let st1 := st.put sp b
      let content := LatestFile.generate ⟨sp, ts⟩
      if ptrOk then
        ⟨false, st1.put azureLatestPath content,
          [.tmpWrite b true, .imgUpload sp b true,
            .ptrUpload azureLatestPath content true]⟩
      else ⟨true, st1, [.tmpWrite b true, .imgUpload sp b true,
        .ptrUpload azureLatestPath content false]⟩
    else ⟨true, st, [.tmpWrite b true, .imgUpload sp b false]⟩
  else ⟨true, st, [.tmpWrite b false]⟩

/-- `azureSnapshotter.Load`: download the pointer blob via
`getLatestSnapshotInfo`, decode it, then download the blob it names. -/
def azureLoad (st : Store) : Option Str :=
  match st azureLatestPath with
  | none => none
  | some bytes =>
    match LatestFile.read bytes with
    | none => none
    | some l => st l.Path

/-! ## The local (file) backend -/

/-- A directory entry: a regular file with contents and modification time, or
a symbolic link naming its target. -/
inductive Entry
  | file (content : Str) (mtime : Nat)
  | link (target : Str)
deriving DecidableEq

/-- A directory: an association list from names to entries; list order is the
enumeration order `ioutil.ReadDir` reports. -/
def Dir := List (Str × Entry)

/-- Directory lookup by name. -/
def dirGet : Dir → Str → Option Entry
  | [], _ => none
  | (k2, e) :: rest, k => if k = k2 then some e else dirGet rest k

/-- Create or overwrite the entry of a name, in place. -/
def dirSet : Dir → Str → Entry → Dir
  | [], k, e => [(k, e)]
  | (k2, e2) :: rest, k, e =>
    if k = k2 then (k2, e) :: rest else (k2, e2) :: dirSet rest k e

/-- Remove the entry of a name. -/
def dirRemove : Dir → Str → Dir
  | [], _ => []
  | (k2, e2) :: rest, k => if k = k2 then rest else (k2, e2) :: dirRemove rest k

/-- The local snapshot file name `etcd.snapshot.<unix-seconds>` (names are
modelled relative to the snapshot directory). -/
def fileSnapshotName (t : Nat) : Str := snapshotFilename ++ '.' :: natToChars t

/-- The local pointer symlink name `etcd.snapshot.LATEST`. -/
def fileLatestName : Str := snapshotFilename ++ '.' :: latestSuffix

/-- Externally visible file-system effects of one `FileSnapshotter.Save`. -/
inductive FEff
  | openCreate (name : Str)
  | removePointer
  | symlinkPointer (target : Str)
  | writeContent (name : Str) (b : Str)
  | logWouldDelete (name : Str)
deriving DecidableEq

/-- The retention filter of `FileSnapshotter.Save`: the entry is not a
symlink, its name has prefix `etcd.snapshot`, and its age strictly exceeds
the retention duration. -/
def pruneCond (retention now : Nat) (name : Str) (e : Entry) : Bool :=
  match e with
  | .link _ => false
  | .file _ mt => snapshotFilename.isPrefixOf name && decide (retention < now - mt)

/-- Result of a local save. -/
structure FileSaveRes where
  dir : Dir
  trace : List FEff

/-- `FileSnapshotter.Save`, success path of the file-system calls: open or
create the timestamped file with `O_RDWR|O_CREATE` (no truncation), remove an
existing pointer symlink, create the new symlink, then `io.Copy` the stream
into the file from offset zero (bytes of longer previous contents beyond the
copied length survive); finally, when retention is configured, enumerate the
directory — entries meeting the retention filter are only logged, the
`os.Remove` being commented out in the source. -/
def fileSave (d : Dir) (now : Nat) (retention : Nat) (b : Str) : FileSaveRes :=
  let sp := fileSnapshotName now
  let old : Str :=
    match dirGet d sp with
    | some (.file c _) => c
    | _ => []
  let d1 :=
    match dirGet d sp with
    | some _ => d
    | none => dirSet d sp (.file [] now)
  let hadPointer := (dirGet d1 fileLatestName).isSome
  let d2 := if hadPointer then dirRemove d1 fileLatestName else d1
  let d3 := dirSet d2 fileLatestName (.link sp)
  let newContent := b ++ old.drop b.length
  let d4 := dirSet d3 sp (.file newContent now)
  let logs :=
    if 0 < retention then
      (d4.filter (fun kv => pruneCond retention now kv.1 kv.2)).map
        (fun kv => FEff.logWouldDelete kv.1)
    else []
  ⟨d4, [FEff.openCreate sp]
    ++ (if hadPointer then [FEff.removePointer] else [])
    ++ [FEff.symlinkPointer sp, FEff.writeContent sp newContent] ++ logs⟩

/-- `FileSnapshotter.Load`: `os.Open` of the pointer symlink name, following
the link to the current snapshot file; returns its contents. -/
def fileLoad (d : Dir) : Option Str :=
  match dirGet d fileLatestName with
  | some (.link target) =>
    match dirGet d target with
    | some (.file c _) => some c
    | _ => none
  | some (.file c _) => some c
  | none => none

/-! ## The S3 lifecycle rule installed at initialization -/

/-- The bucket lifecycle rule `newAmazonSnapshotter` installs when
`retentionDays > 0`: expiration after that many days, filtered only by the
configured key prefix. -/
structure LifecycleRule where
  filterPref : Str
  expirationDays : Nat
deriving DecidableEq

/-- The rule as built by the source (`Filter.Prefix = key`,
`Expiration.Days = retentionDays`). -/
def amazonLifecycleRule (key : Str) (retentionDays : Nat) : LifecycleRule :=
  ⟨key, retentionDays⟩

/-- S3 expiration semantics of such a rule: an object is a deletion target
once its key matches the filter prefix and its age in days exceeds the
rule's expiration days. -/
def LifecycleRule.targets (r : LifecycleRule) (objKey : Str) (ageDays : Nat) : Bool :=
  r.filterPref.isPrefixOf objKey && decide (r.expirationDays < ageDays)

/-! ## The timestamp format of the pointer record -/

/-- Broken-down time as Go's `Time.Format` consumes it for the layout
`2006-01-02T15:04:05-0700`: date and time fields plus the zone offset as a
sign, hours and minutes. -/
structure DateParts where
  year : Nat
  month : Nat
  day : Nat
  hour : Nat
  minute : Nat
  second : Nat
  offNeg : Bool
  offH : Nat
  offM : Nat
deriving DecidableEq

/-- Two-digit zero-padded decimal field. -/
def pad2 (n : Nat) : Str := [digitChar (n / 10 % 10), digitChar (n % 10)]

/-- Four-digit zero-padded decimal field. -/
def pad4 (n : Nat) : Str :=
  [digitChar (n / 1000 % 10), digitChar (n / 100 % 10), digitChar (n / 10 % 10),
    digitChar (n % 10)]

/-- Go `Time.Format` with layout `2006-01-02T15:04:05-0700`, the format both
`AmazonSnapshotter.Save` and `azureSnapshotter.updateLatest` write into the
pointer record: date, `T`, time, then the zone as a sign and a fixed
four-digit offset with no colon. -/
def goTimeFormatNoColon (dp : DateParts) : Str :=
  pad4 dp.year ++ '-' :: pad2 dp.month ++ '-' :: pad2 dp.day
    ++ 'T' :: pad2 dp.hour ++ ':' :: pad2 dp.minute ++ ':' :: pad2 dp.second
    ++ (if dp.offNeg then '-' else '+') :: (pad2 dp.offH ++ pad2 dp.offM)

/-- Shape check for the claimed pattern `YYYY-MM-DDThh:mm:ss±zzzz`: exactly
24 characters, digits in the digit positions, the literal separators, and a
sign followed by a four-digit zone offset with no colon. -/
def isTimestampPattern (s : Str) : Bool :=
  match s with
  | [y1, y2, y3, y4, s1, mo1, mo2, s2, d1, d2, tsep, h1, h2, c1, mi1, mi2, c2,
      se1, se2, sgn, z1, z2, z3, z4] =>
    y1.isDigit && y2.isDigit && y3.isDigit && y4.isDigit && decide (s1 = '-')
      && mo1.isDigit && mo2.isDigit && decide (s2 = '-') && d1.isDigit
      && d2.isDigit && decide (tsep = 'T') && h1.isDigit && h2.isDigit
      && decide (c1 = ':') && mi1.isDigit && mi2.isDigit && decide (c2 = ':')
      && se1.isDigit && se2.isDigit && decide (sgn = '+' ∨ sgn = '-')
      && z1.isDigit && z2.isDigit && z3.isDigit && z4.isDigit
  | _ => false

/-! ## Basic facts about stores, paths and directories -/

theorem Store.put_same (st : Store) (k v : Str) : st.put k v k = some v := by
  simp [Store.put]

theorem Store.put_other (st : Store) (k v k2 : Str) (h : k2 ≠ k) :
    st.put k v k2 = st k2 := by
  simp [Store.put, h]

/-- The timestamped S3 key never collides with the pointer key. -/
theorem amazonSnapshotPath_ne_latest (key : Str) (t : Nat) :
    amazonSnapshotPath key t ≠ amazonLatestPath key := by
  intro h
  unfold amazonSnapshotPath amazonLatestPath at h
  have h2 : natToChars t = latestSuffix := by
    have h3 := List.append_cancel_left h
    simpa using h3
  exact natToChars_ne_LATEST t h2

/-- The timestamped Azure blob name never collides with the pointer name. -/
theorem azureSnapshotPath_ne_latest (t : Nat) :
    azureSnapshotPath t ≠ azureLatestPath := by
  intro h
  unfold azureSnapshotPath azureLatestPath at h
  have h2 : natToChars t = latestSuffix := by
    have h3 := List.append_cancel_left h
    simpa using h3
  exact natToChars_ne_LATEST t h2

/-- The timestamped local file name never collides with the pointer name. -/
theorem fileSnapshotName_ne_latest (t : Nat) :
    fileSnapshotName t ≠ fileLatestName := by
  intro h
  unfold fileSnapshotName fileLatestName at h
  have h2 : natToChars t = latestSuffix := by
    have h3 := List.append_cancel_left h
    simpa using h3
  exact natToChars_ne_LATEST t h2

theorem dirGet_set_same (d : Dir) (k : Str) (e : Entry) :
    dirGet (dirSet d k e) k = some e := by
  induction d with
  | nil => simp [dirSet, dirGet]
  | cons kv rest ih =>
    by_cases h : k = kv.1
    · simp [dirSet, dirGet, h]
    · simp [dirSet, dirGet, h, ih]

theorem dirGet_set_other (d : Dir) (k : Str) (e : Entry) (k2 : Str) (h : k2 ≠ k) :
    dirGet (dirSet d k e) k2 = dirGet d k2 := by
  induction d with
  | nil => simp [dirSet, dirGet, h]
  | cons kv rest ih =>
    by_cases hk : k = kv.1
    · subst hk
      simp [dirSet, dirGet, h]
    · by_cases hk2 : k2 = kv.1
      · simp [dirSet, dirGet, hk, hk2]
      · simp [dirSet, dirGet, hk, hk2, ih]

theorem dirGet_remove_other (d : Dir) (k k2 : Str) (h : k2 ≠ k) :
    dirGet (dirRemove d k) k2 = dirGet d k2 := by
  induction d with
  | nil => simp [dirRemove]
  | cons kv rest ih =>
    by_cases hk : k = kv.1
    · subst hk
      simp [dirRemove, dirGet, fun hh : k2 = kv.1 => h hh]
    · by_cases hk2 : k2 = kv.1
      · simp [dirRemove, dirGet, hk, hk2]
      · simp [dirRemove, dirGet, hk, hk2, ih]

/-! ## Trace-order checkers -/

/-- Scans an S3 trace keeping a flag "a successful image upload has already
happened"; a pointer upload found while the flag is off refutes the check. -/
def s3PtrAfterImg : List S3Eff → Bool → Bool
  | [], _ => true
  | .imgUpload _ _ ok :: rest, _ => s3PtrAfterImg rest ok
  | .ptrUpload _ _ _ :: rest, seen => seen && s3PtrAfterImg rest seen

/-- The same check for Azure traces; temp-file staging does not count as the
image upload. -/
def azPtrAfterImg : List AzEff → Bool → Bool
  | [], _ => true
  | .tmpWrite _ _ :: rest, seen => azPtrAfterImg rest seen
  | .imgUpload _ _ ok :: rest, _ => azPtrAfterImg rest ok
  | .ptrUpload _ _ _ :: rest, seen => seen && azPtrAfterImg rest seen

/-- File-backend check for the claim's ordering: every pointer (symlink)
update must come after the image contents were written. -/
def fContentBeforePtr : List FEff → Bool → Bool
  | [], _ => true
  | .writeContent _ _ :: rest, _ => fContentBeforePtr rest true
  | .symlinkPointer _ :: rest, seen => seen && fContentBeforePtr rest seen
  | _ :: rest, seen => fContentBeforePtr rest seen

/-- File-backend check for what the code actually does: every content write
comes after the pointer symlink was updated. -/
def fPtrBeforeContent : List FEff → Bool → Bool
  | [], _ => true
  | .symlinkPointer _ :: rest, _ => fPtrBeforeContent rest true
  | .writeContent _ _ :: rest, seen => seen && fPtrBeforeContent rest seen
  | _ :: rest, seen => fPtrBeforeContent rest seen

/-! ## Claim C1 -/

/-- Fold of successful `AmazonSnapshotter.Save` calls; `ts` maps the
wall-clock second of a save to the formatted timestamp string it writes. -/
def amazonSaveAll (key : Str) (st : Store) (ts : Nat → Str)
    (saves : List (Nat × Str)) : Store :=
  saves.foldl (fun s tb => (amazonSave key s tb.1 (ts tb.1) tb.2 true true).store) st

/-- C1: for every sequence of successful save operations `s1, …, sn` on one
`AmazonSnapshotter` instance, each save beginning at a distinct, increasing
wall-clock second, a subsequent `Load` returns a stream whose contents are
exactly the bytes passed to the most recent save `sn`. -/
theorem C1_load_returns_most_recent_save (key : Str) (st : Store) (ts : Nat → Str)
    (pre : List (Nat × Str)) (t : Nat) (b : Str)
    (hmono : ((pre ++ [(t, b)]).map Prod.fst).Pairwise (· < ·)) :
    amazonLoad key (amazonSaveAll key st ts (pre ++ [(t, b)])) = some b := by
  rw [amazonSaveAll, List.foldl_append]
  simp only [List.foldl_cons, List.foldl_nil]
  have hstep : ∀ s : Store, (amazonSave key s t (ts t) b true true).store
      = (s.put (amazonSnapshotPath key t) b).put (amazonLatestPath key)
          (LatestFile.generate ⟨amazonSnapshotPath key t, ts t⟩) := by
    intro s; simp [amazonSave]
  rw [hstep]
  simp [amazonLoad, Store.put, read_generate, amazonSnapshotPath_ne_latest key t]

/-- C1 witness: two saves at seconds 1 and 2 into an empty bucket; load
returns the bytes of the second save. -/
theorem C1_witness :
    amazonLoad ("k/".data) (amazonSaveAll ("k/".data) (fun _ => none)
      (fun _ => ("x".data)) ([((1 : Nat), ("a".data))] ++ [(2, ("bb".data))]))
      = some ("bb".data) :=
  C1_load_returns_most_recent_save ("k/".data) (fun _ => none) (fun _ => ("x".data))
    [((1 : Nat), ("a".data))] 2 ("bb".data) (by decide)

/-! ## Claim C2 -/

/-- C2: for every URL `azure://<host>/<container>`, `ParseAzureURL` yields the
storage-account host and the container (the first path segment); an empty
host fails with the host-empty error and an empty container path fails with
the path-empty error.  The general clauses are stated over the parsed URL
parts; the concrete clauses are the rows of `TestParseAzureURL`. -/
theorem C2_parse_azure_url :
    (∀ (s : Str) (u : UrlParts), goUrlParse s = some u →
       toLowerStr u.scheme = ("azure".data) →
       ((u.host = [] → parseAzureURL s = .error .hostEmpty)
        ∧ (u.host ≠ [] → firstSegment u.path = [] →
            parseAzureURL s = .error .pathEmpty)
        ∧ (u.host ≠ [] → firstSegment u.path ≠ [] →
            parseAzureURL s = .ok (u.host, firstSegment u.path))))
    ∧ parseAzureURL ("azure://mystorageaccount.blob.core.windows.net/my-container".data)
        = .ok (("mystorageaccount.blob.core.windows.net".data), ("my-container".data))
    ∧ parseAzureURL ("azure:///my-container".data) = .error .hostEmpty
    ∧ parseAzureURL ("azure://mystorageaccount.blob.core.windows.net/".data)
        = .error .pathEmpty
    ∧ parseAzureURL ("http://example.com/my-container".data)
        = .error .unsupportedScheme := by
  refine ⟨?_, by decide, by decide, by decide, by decide⟩
  intro s u hp hsch
  refine ⟨?_, ?_, ?_⟩
  · intro hh
    simp [parseAzureURL, hp, hsch, hh]
  · intro hh hseg
    simp [parseAzureURL, hp, hsch, hh, hseg]
  · intro hh hseg
    simp [parseAzureURL, hp, hsch, hh, hseg]

/-- C2 witness: the general clause applied to `azure://h/c`. -/
theorem C2_witness : parseAzureURL ("azure://h/c".data) = .ok (("h".data), ("c".data)) :=
  (C2_parse_azure_url.1 ("azure://h/c".data)
    ⟨("azure".data), ("h".data), ("/c".data)⟩
    (by decide) (by decide)).2.2 (by decide) (by decide)

/-! ## Claim C3 -/

theorem fPtrBeforeContent_logs (xs : List (Str × Entry)) (seen : Bool) :
    fPtrBeforeContent (xs.map (fun kv => FEff.logWouldDelete kv.1)) seen = true := by
  induction xs with
  | nil => simp [fPtrBeforeContent]
  | cons kv rest ih => simp [fPtrBeforeContent, ih]

theorem fPtrBeforeContent_iteRemove (c : Bool) (rest : List FEff) (seen : Bool) :
    fPtrBeforeContent ((if c then [FEff.removePointer] else []) ++ rest) seen
      = fPtrBeforeContent rest seen := by
  cases c <;> simp [fPtrBeforeContent]

/-- C3 counterexample: the claim says every backend completely writes the
snapshot image before the pointer update begins, but on the local backend the
trace of a save into an empty directory updates the pointer symlink before
the image contents are written: the content write is not before the pointer
update (`fContentBeforePtr` is the claim's ordering check). -/
theorem C3_counterexample :
    (fileSave [] 5 0 ("ab".data)).trace
        = [FEff.openCreate ("etcd.snapshot.5".data),
           FEff.symlinkPointer ("etcd.snapshot.5".data),
           FEff.writeContent ("etcd.snapshot.5".data) ("ab".data)]
      ∧ fContentBeforePtr (fileSave [] 5 0 ("ab".data)).trace false = false := by
  constructor
  · decide
  · decide

/-- C3 (amended): in the S3 and Azure backends every pointer upload in a save
trace is preceded by a successful image upload; in the local backend the
image file is created first (the trace starts with the open/create), but the
pointer symlink is updated before the image contents are copied in. -/
theorem C3_image_before_pointer_amended :
    (∀ (key : Str) (st : Store) (t : Nat) (ts b : Str) (imgOk ptrOk : Bool),
        s3PtrAfterImg (amazonSave key st t ts b imgOk ptrOk).trace false = true)
    ∧ (∀ (st : Store) (t : Nat) (ts b : Str) (tmpOk imgOk ptrOk : Bool),
        azPtrAfterImg (azureSave st t ts b tmpOk imgOk ptrOk).trace false = true)
    ∧ (∀ (d : Dir) (now r : Nat) (b : Str),
        (fileSave d now r b).trace.head?
            = some (FEff.openCreate (fileSnapshotName now))
          ∧ fPtrBeforeContent (fileSave d now r b).trace false = true) := by
  refine ⟨?_, ?_, ?_⟩
  · intro key st t ts b imgOk ptrOk
    cases imgOk <;> cases ptrOk <;> simp [amazonSave, s3PtrAfterImg]
  · intro st t ts b tmpOk imgOk ptrOk
    cases tmpOk <;> cases imgOk <;> cases ptrOk <;> simp [azureSave, azPtrAfterImg]
  · intro d now r b
    constructor
    · simp [fileSave]
    · simp only [fileSave]
      simp only [List.cons_append, List.singleton_append]
      rw [show ∀ x : List FEff,
          fPtrBeforeContent (FEff.openCreate (fileSnapshotName now) :: x) false
            = fPtrBeforeContent x false from fun x => by simp [fPtrBeforeContent]]
      simp only [List.nil_append, List.append_assoc]
      rw [fPtrBeforeContent_iteRemove]
      simp [fPtrBeforeContent]
      split
      · exact fPtrBeforeContent_logs _ _
      · simp [fPtrBeforeContent]

/-! ## Claim C4 -/

/-- C4: the claim says that after a successful local save with retention
`R > 0`, every regular `etcd.snapshot.`-prefixed file older than `R` is
deleted.  The code only logs: on a directory holding the aged regular file
`etcd.snapshot.0` (modification time 0), a save at second 5 with retention 1
leaves the file in place even though it satisfies the retention filter and is
logged as a would-be deletion — the `os.Remove` call is commented out. -/
theorem C4_retention_logs_but_does_not_delete :
    pruneCond 1 5 ("etcd.snapshot.0".data) (Entry.file ("a".data) 0) = true
      ∧ dirGet (fileSave [(("etcd.snapshot.0".data), Entry.file ("a".data) 0)] 5 1
          ("c".data)).dir ("etcd.snapshot.0".data) = some (Entry.file ("a".data) 0)
      ∧ FEff.logWouldDelete ("etcd.snapshot.0".data)
          ∈ (fileSave [(("etcd.snapshot.0".data), Entry.file ("a".data) 0)] 5 1
              ("c".data)).trace := by
  refine ⟨by decide, by decide, by decide⟩

/-! ## Claim C5 -/

/-- C5 counterexample: the claim says the pointer entry
`etcd.snapshot.LATEST` is never a deletion target in any retention regime,
but the S3 lifecycle rule installed by `newAmazonSnapshotter` (prefix `b/`,
one day) has the pointer object `b/etcd.snapshot.LATEST` within its filter,
so at age 2 days the pointer is an expiration target. -/
theorem C5_counterexample :
    (amazonLifecycleRule ("b/".data) 1).targets (amazonLatestPath ("b/".data)) 2
      = true := by decide

/-- C5 (amended): the local retention filter never selects the pointer
symlink (symlink entries are excluded by the mode check, and the local code
deletes nothing anyway), but the S3 lifecycle rule installed at
initialization filters only on the configured key prefix, so the pointer
object `<key>etcd.snapshot.LATEST` is a deletion target once its age exceeds
the configured days. -/
theorem C5_pointer_prune_amended (retention now days age : Nat) (key target : Str)
    (hage : days < age) :
    pruneCond retention now fileLatestName (Entry.link target) = false
      ∧ (amazonLifecycleRule key days).targets (amazonLatestPath key) age = true := by
  constructor
  · simp [pruneCond]
  · simp [LifecycleRule.targets, amazonLifecycleRule, hage, amazonLatestPath]

/-- C5 witness: the amended statement at retention 1 day and age 2 days. -/
theorem C5_witness :
    pruneCond 1 5 fileLatestName (Entry.link ("x".data)) = false
      ∧ (amazonLifecycleRule ("b/".data) 1).targets (amazonLatestPath ("b/".data)) 2
          = true :=
  C5_pointer_prune_amended 1 5 1 2 ("b/".data) ("x".data) (by decide)

/-! ## Claim C6 -/

theorem singleton_isSuffixOf_iff (c : Char) (p : Str) :
    [c].isSuffixOf p = true ↔ p.getLast? = some c := by
  rw [List.isSuffixOf_iff_suffix]
  constructor
  · rintro ⟨t, rfl⟩
    simp [List.getLast?_append]
  · intro h
    rcases p.eq_nil_or_concat with rfl | ⟨q, d, rfl⟩
    · simp at h
    · simp [List.getLast?_concat] at h
      exact ⟨q, by simp [h]⟩

/-- C6: for every `file://` URL the parser returns a local locator whose path
is the host joined with the URL path, rejecting as invalid-directory any path
not ending in the separator; for every `s3://` URL it returns bucket = host
and prefix = path with the leading slash trimmed, rejecting as
invalid-directory any non-empty prefix not ending in `/`.  The concrete
clauses are the boundary rows: `file:///` yields path `/`, `file://abc` is
rejected, `s3://abc/` yields bucket `abc` with empty prefix, and
`s3://abc/backupdir` is rejected. -/
theorem C6_parse_file_and_s3_urls :
    (∀ (s : Str) (u : UrlParts), hasValidScheme s = true → goUrlParse s = some u →
       toLowerStr u.scheme = ("file".data) →
       parseSnapshotBackupURL s =
         (if u.path.getLast? = some '/'
          then .ok ⟨.file, [], filepathJoin u.host u.path⟩
          else .error .invalidDirectoryPath))
    ∧ (∀ (s : Str) (u : UrlParts), hasValidScheme s = true → goUrlParse s = some u →
       toLowerStr u.scheme = ("s3".data) →
       parseSnapshotBackupURL s =
         (if (trimPref u.path ("/".data)).getLast? = some '/'
              ∨ trimPref u.path ("/".data) = []
          then .ok ⟨.s3, u.host, trimPref u.path ("/".data)⟩
          else .error .invalidDirectoryPath))
    ∧ parseSnapshotBackupURL ("file:///".data) = .ok ⟨.file, [], ("/".data)⟩
    ∧ parseSnapshotBackupURL ("file://abc".data) = .error .invalidDirectoryPath
    ∧ parseSnapshotBackupURL ("s3://abc/".data) = .ok ⟨.s3, ("abc".data), []⟩
    ∧ parseSnapshotBackupURL ("s3://abc/backupdir".data)
        = .error .invalidDirectoryPath := by
  refine ⟨?_, ?_, by decide, by decide, by decide, by decide⟩
  · intro s u hv hp hsch
    by_cases hend : u.path.getLast? = some '/'
    · have hsuf : ['/'].isSuffixOf u.path = true :=
        (singleton_isSuffixOf_iff '/' u.path).2 hend
      simp [parseSnapshotBackupURL, hv, hp, hsch, hsuf, hend]
    · have hsuf : ¬ ['/'].isSuffixOf u.path = true := by
        rw [singleton_isSuffixOf_iff]; exact hend
      simp [parseSnapshotBackupURL, hv, hp, hsch, hsuf, hend]
  · intro s u hv hp hsch
    have hnfile : ¬ toLowerStr u.scheme = ("file".data) := by
      rw [hsch]; decide
    by_cases hemp : trimPref u.path ("/".data) = []
    · have hsuf : ¬ ['/'].isSuffixOf (trimPref u.path ("/".data)) = true := by
        rw [singleton_isSuffixOf_iff, hemp]; decide
      simp [parseSnapshotBackupURL, hv, hp, hsch, hnfile, hsuf, hemp]
    · by_cases hend : (trimPref u.path ("/".data)).getLast? = some '/'
      · have hsuf : ['/'].isSuffixOf (trimPref u.path ("/".data)) = true :=
          (singleton_isSuffixOf_iff '/' _).2 hend
        simp [parseSnapshotBackupURL, hv, hp, hsch, hnfile, hsuf, hend]
      · have hsuf : ¬ ['/'].isSuffixOf (trimPref u.path ("/".data)) = true := by
          rw [singleton_isSuffixOf_iff]; exact hend
        simp [parseSnapshotBackupURL, hv, hp, hsch, hnfile, hsuf, hend, hemp]

/-- C6 witness: the file clause applied to `file://abc/`. -/
theorem C6_witness : parseSnapshotBackupURL ("file://abc/".data)
    = .ok ⟨.file, [], ("abc".data)⟩ := by
  have h := C6_parse_file_and_s3_urls.1 ("file://abc/".data)
    ⟨("file".data), ("abc".data), ("/".data)⟩ (by decide) (by decide) (by decide)
  rw [h]
  decide

/-! ## Claim C7 -/

/-- C7 counterexample: the claim says `http://example.com/x` is rejected by
the backup URL parser with the unsupported-scheme error, but the parser has
no such error: `http://` passes the scheme allow-list and the URL falls
through the dispatch to the cannot-parse error, which is a different error
from the invalid-scheme one. -/
theorem C7_counterexample :
    parseSnapshotBackupURL ("http://example.com/x".data) = .error .cannotParse
      ∧ UrlErr.cannotParse ≠ UrlErr.invalidScheme := by
  exact ⟨by decide, by decide⟩

/-- C7 (amended): an empty URL and every URL not starting with one of
`file://`, `s3://`, `http://`, `https://` — so `azure://` URLs included — is
rejected with the invalid-scheme error, while a URL that passes the
allow-list but whose scheme has no dispatch case (`http`, `https`) is
rejected with the cannot-parse error, `http://example.com/x` among them. -/
theorem C7_scheme_errors_amended :
    (parseSnapshotBackupURL ("".data) = .error .invalidScheme)
    ∧ (∀ s : Str, hasValidScheme s = false →
        parseSnapshotBackupURL s = .error .invalidScheme)
    ∧ hasValidScheme ("azure://host/c".data) = false
    ∧ parseSnapshotBackupURL ("http://example.com/x".data) = .error .cannotParse
    ∧ (∀ (s : Str) (u : UrlParts), hasValidScheme s = true → goUrlParse s = some u →
        toLowerStr u.scheme ≠ ("file".data) → toLowerStr u.scheme ≠ ("s3".data) →
        toLowerStr u.scheme ≠ ("azure".data) →
        parseSnapshotBackupURL s = .error .cannotParse) := by
  refine ⟨by decide, ?_, by decide, by decide, ?_⟩
  · intro s h
    simp [parseSnapshotBackupURL, h]
  · intro s u hv hp h1 h2 h3
    simp [parseSnapshotBackupURL, hv, hp, h1, h2, h3]

/-- C7 witness: the invalid-scheme clause applied to `ftp://x/`. -/
theorem C7_witness : parseSnapshotBackupURL ("ftp://x/".data) = .error .invalidScheme :=
  C7_scheme_errors_amended.2.1 ("ftp://x/".data) (by decide)

/-! ## Claim C8 -/

/-- C8: a save whose image upload succeeds but whose pointer upload fails
propagates the error to the caller, leaves the orphan image object behind,
and leaves the pointer key exactly as it was — referencing the previously
saved snapshot, or absent if this was the first save — in both the Amazon
and the Azure backends. -/
theorem C8_pointer_failure_semantics (key : Str) (st : Store) (t : Nat) (ts b : Str) :
    ((amazonSave key st t ts b true false).err = true
      ∧ (amazonSave key st t ts b true false).store (amazonSnapshotPath key t) = some b
      ∧ (amazonSave key st t ts b true false).store (amazonLatestPath key)
          = st (amazonLatestPath key))
    ∧ ((azureSave st t ts b true true false).err = true
      ∧ (azureSave st t ts b true true false).store (azureSnapshotPath t) = some b
      ∧ (azureSave st t ts b true true false).store azureLatestPath
          = st azureLatestPath) := by
  have h1 := amazonSnapshotPath_ne_latest key t
  have h2 := azureSnapshotPath_ne_latest t
  refine ⟨⟨?_, ?_, ?_⟩, ⟨?_, ?_, ?_⟩⟩ <;>
    simp [amazonSave, azureSave, Store.put, h1, h2, Ne.symm h1, Ne.symm h2]

/-! ## Claim C9 -/

/-- C9: serializing a pointer record with `generate` and deserializing the
produced bytes with `read` yields a record equal field for field to the
original; and the timestamp format used by save,
`2006-01-02T15:04:05-0700`, always produces the pattern
`YYYY-MM-DDThh:mm:ss±zzzz` — a fixed four-digit zone offset with no colon. -/
theorem C9_pointer_record_roundtrip_and_timestamp_format :
    (∀ l : LatestFile, LatestFile.read l.generate = some l)
      ∧ (∀ dp : DateParts, isTimestampPattern (goTimeFormatNoColon dp) = true) := by
  constructor
  · exact read_generate
  · intro dp
    have hd : ∀ n : Nat, (digitChar (n % 10)).isDigit = true := fun n =>
      digitChar_isDigit (Nat.mod_lt _ (by omega))
    cases h : dp.offNeg <;>
      simp [goTimeFormatNoColon, pad4, pad2, isTimestampPattern, hd, h]

/-! ## Claim C10 -/

/-- The previous content of the snapshot file of second `now`, as
`FileSnapshotter.Save` finds it when opening with create-but-no-truncate. -/
def oldContent (d : Dir) (now : Nat) : Str :=
  match dirGet d (fileSnapshotName now) with
  | some (.file c _) => c
  | _ => []

theorem fileSave_dir_facts (d : Dir) (now r : Nat) (b : Str) :
    dirGet (fileSave d now r b).dir (fileSnapshotName now)
        = some (Entry.file (b ++ (oldContent d now).drop b.length) now)
      ∧ dirGet (fileSave d now r b).dir fileLatestName
        = some (Entry.link (fileSnapshotName now)) := by
  have hne := fileSnapshotName_ne_latest now
  constructor
  · simp only [fileSave, oldContent]
    rw [dirGet_set_same]
  · simp only [fileSave, oldContent]
    rw [dirGet_set_other _ _ _ _ (Ne.symm hne), dirGet_set_same]

theorem fileLoad_after_save (d : Dir) (now r : Nat) (b : Str) :
    fileLoad (fileSave d now r b).dir
      = some (b ++ (oldContent d now).drop b.length) := by
  have h := fileSave_dir_facts d now r b
  rw [fileLoad, h.2]
  simp [h.1]

/-- C10: when two local saves run in the same wall-clock second `t`, the
second save reuses the name `etcd.snapshot.<t>`, opens it with
create-but-no-truncate and writes from offset zero; with a second image
shorter than the first, the file afterwards holds the second image followed
by the trailing bytes of the first, and load returns those mixed bytes. -/
theorem C10_same_second_save_mixes_contents (d : Dir) (t r : Nat) (b1 b2 : Str)
    (hfresh : dirGet d (fileSnapshotName t) = none)
    (hlen : b2.length < b1.length) :
    dirGet (fileSave (fileSave d t r b1).dir t r b2).dir (fileSnapshotName t)
        = some (Entry.file (b2 ++ b1.drop b2.length) t)
      ∧ fileLoad (fileSave (fileSave d t r b1).dir t r b2).dir
        = some (b2 ++ b1.drop b2.length) := by
  have h1 := fileSave_dir_facts d t r b1
  have hold1 : oldContent d t = [] := by simp [oldContent, hfresh]
  have hc1 : dirGet (fileSave d t r b1).dir (fileSnapshotName t)
      = some (Entry.file b1 t) := by
    rw [h1.1, hold1]
    simp
  have hold2 : oldContent (fileSave d t r b1).dir t = b1 := by
    simp [oldContent, hc1]
  have h2 := fileSave_dir_facts (fileSave d t r b1).dir t r b2
  refine ⟨?_, ?_⟩
  · rw [h2.1, hold2]
  · rw [fileLoad_after_save, hold2]

/-- C10 witness: saves of `abc` then `z` in the same second 7 leave the file
holding `zbc`, and load returns `zbc`. -/
theorem C10_witness :
    dirGet (fileSave (fileSave [] 7 0 ("abc".data)).dir 7 0 ("z".data)).dir
        (fileSnapshotName 7) = some (Entry.file ("zbc".data) 7)
      ∧ fileLoad (fileSave (fileSave [] 7 0 ("abc".data)).dir 7 0 ("z".data)).dir
        = some ("zbc".data) := by
  have h := C10_same_second_save_mixes_contents [] 7 0 ("abc".data) ("z".data)
    (by decide) (by decide)
  exact ⟨by rw [h.1]; decide, by rw [h.2]; decide⟩

end E2D